import Mathlib

/-
Verification of the distributed-lock package (go-anyway/framework-lock).

Shallow embedding of `lock.go`, `config.go` (src/unnamed/part_001) and the
interfaces file (src/unnamed/part_002 is the observability decorator,
src/unnamed/part_000 the go.mod).  The remote key-value store (Redis) is an
external collaborator; its three atomic operations are modelled with the
semantics the code relies on: SetNX (create-if-absent with TTL), and the two
Lua scripts embedded verbatim in `unlock` and `extend`, which are atomic
compare-then-delete and compare-then-set-expiration.  One round trip of the
client can also fail (network or server error); every operation therefore
takes an explicit `roundTrip : Option String` argument: `none` means the
round trip succeeded and the store applied the operation, `some e` means it
failed with underlying cause `e`.

Go durations (`time.Duration`) are Int nanoseconds.  Go `int` is Int.
The observability wrapper `lockWithTrace` (part_002) executes the handler
and returns its error unchanged; it never alters a protocol outcome, so the
public methods `Lock` / `TryLock` / `Unlock` / `Extend` reduce to the inner
`lock` / `tryLock` / `unlock` / `extend` whose semantics we embed directly.
-/

namespace FrameworkLock

/-- One store entry: the stored owner token and the remaining time-to-live
in nanoseconds. -/
structure Entry where
  value : String
  ttlNanos : Int
deriving DecidableEq, Repr

/-- The key-value store, as an association list from keys to entries.
A key occurring in the list is a live entry (TTL expiry is not an event of
the embedded code; the code only ever sets TTLs). -/
abbrev Store := List (String × Entry)

/-- Lookup of the entry stored at a key (first match). -/
def storeFind : Store → String → Option Entry
  | [], _ => none
  | (k1, e) :: rest, k => if k1 = k then some e else storeFind rest k

/-- Semantics of `redis.call("get", k)` as used by the two Lua scripts:
the stored value at the key, if any. -/
def redisGet (st : Store) (k : String) : Option String :=
  (storeFind st k).map Entry.value

/-- Semantics of `redis.call("del", k)`: remove the entry for the key. -/
def redisDel (st : Store) (k : String) : Store :=
  st.filter (fun p => p.1 ≠ k)

/-- Semantics of `redis.call("expire", k, seconds)` on a present key: reset
the remaining TTL.  The argument is in whole seconds (that is what EXPIRE
takes); we record the resulting remaining lease in nanoseconds. -/
def redisExpireSet (st : Store) (k : String) (ttlNanos : Int) : Store :=
  st.map (fun p => if p.1 = k then (p.1, Entry.mk p.2.value ttlNanos) else p)

/-- Semantics of `client.SetNX(ctx, key, value, ttl)` when the round trip
succeeds: create the entry iff the key is absent; report whether it was
created. -/
def setNX (st : Store) (k v : String) (ttlNanos : Int) : Bool × Store :=
  match storeFind st k with
  | some _ => (false, st)
  | none => (true, (k, Entry.mk v ttlNanos) :: st)

/-- `Options` from config.go: lock key, TTL, retry delay, max retries,
trace flag.  Durations in nanoseconds, Go int as Int. -/
structure Options where
  Key : String
  TTL : Int
  RetryDelay : Int
  MaxRetries : Int
  EnableTrace : Bool
deriving DecidableEq, Repr

/-- `RedisLock` from lock.go: the options and the lock value (owner token).
The client is not a field here; each operation takes the store state and
the round-trip outcome explicitly. -/
structure RedisLock where
  options : Options
  value : String
deriving DecidableEq, Repr

/-- The digit character for a decimal digit, as produced by fmt %d. -/
def digitChar (d : Nat) : Char := Char.ofNat (48 + d)

/-- Decimal rendering of a natural number (the digits of fmt %d). -/
def decimalString (n : Nat) : String :=
  if n = 0 then "0" else String.mk (((Nat.digits 10 n).map digitChar).reverse)

/-- `generateLockValue` from lock.go:
`fmt.Sprintf("%d", time.Now().UnixNano())` — the decimal rendering of the
construction-time clock reading (int64 nanoseconds), taken here as an
explicit argument since the clock is an ambient effect. -/
def generateLockValue (nowUnixNano : Int) : String :=
  if nowUnixNano < 0 then "-" ++ decimalString nowUnixNano.natAbs
  else decimalString nowUnixNano.natAbs

/-- `NewRedisLock` from lock.go: nil options are replaced by the default
literal (Key is not set there, so it is the Go zero value ""); the owner
token is generated from the construction-time clock. -/
def NewRedisLock (opts : Option Options) (nowUnixNano : Int) : RedisLock :=
  RedisLock.mk
    (match opts with
     | none => Options.mk "" 30000000000 100000000 3 true
     | some o => o)
    (generateLockValue nowUnixNano)

/-- The Go errors the package can return, with the underlying cause kept
where fmt.Errorf wraps one:
`storeWrapped e`    = "failed to acquire lock: %w" wrapping e;
`releaseWrapped e`  = "failed to release lock: %w" wrapping e;
`extendWrapped e`   = "failed to extend lock: %w" wrapping e;
`exhaustedErr n`    = "failed to acquire lock after %d retries" with n;
`contextErr e`      = the ctx.Err() value surfaced verbatim. -/
inductive GoError where
  | storeWrapped (cause : String)
  | releaseWrapped (cause : String)
  | extendWrapped (cause : String)
  | exhaustedErr (maxRetries : Int)
  | contextErr (cause : String)
deriving DecidableEq, Repr

/-- `tryLock` from lock.go: one SetNX round trip.  On round-trip failure,
return (false, wrapped error); otherwise return the SetNX outcome with nil
error. -/
def RedisLock.tryLock (l : RedisLock) (roundTrip : Option String) (st : Store) :
    (Bool × Option GoError) × Store :=
  match roundTrip with
  | some e => ((false, some (GoError.storeWrapped e)), st)
  | none =>
    let r := setNX st l.options.Key l.value l.options.TTL
    ((r.1, none), r.2)

/-- The release Lua script of `unlock`:
if get(KEYS[1]) == ARGV[1] then del(KEYS[1]) else 0.
Returns the script result and the resulting store. -/
def evalReleaseScript (st : Store) (k v : String) : Int × Store :=
  match redisGet st k with
  | some cur => if cur = v then (1, redisDel st k) else (0, st)
  | none => (0, st)

/-- `unlock` from lock.go: run the release script; the script result is
discarded, so both the matched and unmatched outcome report success; only a
failed round trip yields an error (wrapping the cause). -/
def RedisLock.unlock (l : RedisLock) (roundTrip : Option String) (st : Store) :
    Option GoError × Store :=
  match roundTrip with
  | some e => (some (GoError.releaseWrapped e), st)
  | none => (none, (evalReleaseScript st l.options.Key l.value).2)

/-- `int(duration.Seconds())` from `extend`: the duration converted to
whole seconds, truncated toward zero (Go float64 conversion; exact as
integer truncating division for all int64 durations of practical size). -/
def goDurationWholeSeconds (d : Int) : Int := Int.tdiv d 1000000000

/-- The extend Lua script:
if get(KEYS[1]) == ARGV[1] then expire(KEYS[1], ARGV[2]) else 0.
ARGV[2] is in whole seconds; the resulting remaining lease is that many
seconds, recorded in nanoseconds. -/
def evalExtendScript (st : Store) (k v : String) (seconds : Int) : Int × Store :=
  match redisGet st k with
  | some cur =>
    if cur = v then (1, redisExpireSet st k (seconds * 1000000000)) else (0, st)
  | none => (0, st)

/-- `extend` from lock.go: run the extend script with
`int(duration.Seconds())`; the script result is discarded, so both outcomes
report success; only a failed round trip yields an error. -/
def RedisLock.extend (l : RedisLock) (roundTrip : Option String) (st : Store)
    (d : Int) : Option GoError × Store :=
  match roundTrip with
  | some e => (some (GoError.extendWrapped e), st)
  | none =>
    (none, (evalExtendScript st l.options.Key l.value (goDurationWholeSeconds d)).2)

/-- Outcome of one SetNX round trip inside the retry loop of `lock`:
either the round trip succeeded and reported whether the entry was created,
or it failed with an underlying cause.  The loop is driven by an oracle
`Nat → TryResult` giving the outcome of each successive attempt (it
abstracts the store state and connectivity at that moment). -/
inductive TryResult where
  | succeeded (acquired : Bool)
  | roundTripErr (cause : String)
deriving DecidableEq, Repr

/-- Outcome of one inter-attempt wait of `lock`, the select between
ctx.Done() and time.After(RetryDelay): either the timer fired (the wait
completed), or the context was canceled first with ctx.Err() = cause. -/
inductive WaitResult where
  | completed
  | canceled (cause : String)
deriving DecidableEq, Repr

/-- The retry loop of `lock` from lock.go, one unfolding per remaining
iteration (`fuel` = remaining iterations; the oracles are shifted by one at
each step, so oracle index 0 is always the current attempt, matching the
loop index i).  Result: the returned error (`none` = success), the number
of TryLock calls made, and the number of completed inter-attempt waits.
Each iteration: TryLock (a round-trip failure is returned at once, wrapped
as in `tryLock`; acquisition returns nil at once), then the select (a
cancellation returns ctx.Err() at once, before the wait completes).  When
the fuel runs out the loop exits and `lock` returns the exhaustion error
naming MaxRetries. -/
def lockGo : (Nat → TryResult) → (Nat → WaitResult) → Int → Nat →
    Option GoError × Nat × Nat
  | _, _, m, 0 => (some (GoError.exhaustedErr m), 0, 0)
  | tries, waits, m, fuel + 1 =>
    match tries 0 with
    | TryResult.roundTripErr e => (some (GoError.storeWrapped e), 1, 0)
    | TryResult.succeeded true => (none, 1, 0)
    | TryResult.succeeded false =>
      match waits 0 with
      | WaitResult.canceled e => (some (GoError.contextErr e), 1, 0)
      | WaitResult.completed =>
        let r := lockGo (fun j => tries (j + 1)) (fun j => waits (j + 1)) m fuel
        (r.1, r.2.1 + 1, r.2.2 + 1)

/-- `lock` from lock.go: the loop runs `for i := 0; i < MaxRetries; i++`,
hence `MaxRetries.toNat` iterations. -/
def lockRun (tries : Nat → TryResult) (waits : Nat → WaitResult)
    (maxRetries : Int) : Option GoError × Nat × Nat :=
  lockGo tries waits maxRetries maxRetries.toNat

/-- Sequential execution of one `tryLock` per handle against a shared
store, each round trip succeeding.  Since SetNX is a single atomic store
operation, any concurrent execution of N TryLock calls is equivalent to
running them in some serialization order; quantifying over the list covers
every order. -/
def runTryLocks : List RedisLock → Store → List (Bool × Option GoError) × Store
  | [], st => ([], st)
  | l :: ls, st =>
    let r := l.tryLock none st
    let rest := runTryLocks ls r.2
    (r.1 :: rest.1, rest.2)

/-- `Config` from config.go: the yaml-facing configuration.  Durations in
nanoseconds. -/
structure Config where
  Enabled : Bool
  TTL : Int
  RetryDelay : Int
  MaxRetries : Int
  EnableTrace : Bool
deriving DecidableEq, Repr

/-- `Config.Validate` from config.go.  `none` = nil error, `some msg` = the
error message.  (The Go nil-receiver check has no counterpart here: a
`Config` value always exists.) -/
def Config.Validate (c : Config) : Option String :=
  if c.Enabled = false then none
  else if c.TTL ≤ 0 then some "lock ttl must be greater than 0"
  else if c.MaxRetries < 0 then some "lock max_retries must be non-negative"
  else none

/-- `Config.ToOptions` from config.go: validate, reject a disabled config,
then build Options substituting the documented defaults for zero values
(Key is not set, so it is the Go zero value ""). -/
def Config.ToOptions (c : Config) : Except String Options :=
  match c.Validate with
  | some e => Except.error e
  | none =>
    if c.Enabled = false then Except.error "lock is not enabled"
    else
      Except.ok (Options.mk ""
        (if c.TTL = 0 then 30000000000 else c.TTL)
        (if c.RetryDelay = 0 then 100000000 else c.RetryDelay)
        (if c.MaxRetries = 0 then 3 else c.MaxRetries)
        c.EnableTrace)

/-! Concrete fixtures used by witnesses and counterexamples. -/

/-- A handle on key "k" with owner token "tok" and the default options. -/
def lockK : RedisLock :=
  RedisLock.mk (Options.mk "k" 30000000000 100000000 3 true) "tok"

/-- A store in which "k" is held by token "tok" with a 30s lease. -/
def heldByTok : Store := [("k", Entry.mk "tok" 30000000000)]

/-- An attempt oracle on which every SetNX round trip succeeds but finds the
key already held (acquired = false every time). -/
def allBusy : Nat → TryResult := fun _ => TryResult.succeeded false

/-- A wait oracle on which every inter-attempt wait completes. -/
def allWaitsComplete : Nat → WaitResult := fun _ => WaitResult.completed

/-- A wait oracle: the first wait completes, every later wait is interrupted
by context cancellation. -/
def cancelAtOne : Nat → WaitResult :=
  fun j => if j = 0 then WaitResult.completed else WaitResult.canceled "context canceled"

/-- An attempt oracle: the first attempt finds the key held, the second
round trip fails. -/
def errAtOne : Nat → TryResult :=
  fun j => if j = 0 then TryResult.succeeded false
           else TryResult.roundTripErr "connection refused"

/-- Three handles contending for the key "res1" with distinct tokens. -/
def lockA : RedisLock :=
  RedisLock.mk (Options.mk "res1" 30000000000 100000000 3 true) "tokA"

/-- Second contender for "res1". -/
def lockB : RedisLock :=
  RedisLock.mk (Options.mk "res1" 30000000000 100000000 3 true) "tokB"

/-- Third contender for "res1". -/
def lockC : RedisLock :=
  RedisLock.mk (Options.mk "res1" 30000000000 100000000 3 true) "tokC"

/-- Options for key "a". -/
def optsA : Options := Options.mk "a" 30000000000 100000000 3 true

/-- Options for key "b". -/
def optsB : Options := Options.mk "b" 30000000000 100000000 3 true

/-! Helper lemmas about the store operations. -/

/-- After a DEL of a key, the store has no entry for that key. -/
theorem storeFind_redisDel (st : Store) (k : String) :
    storeFind (redisDel st k) k = none := by
  induction st with
  | nil => rfl
  | cons p rest ih =>
    by_cases h : p.1 = k
    · simpa [redisDel, h] using ih
    · simpa [redisDel, storeFind, h] using ih

/-- EXPIRE rewrites exactly the TTL of the entry at the key. -/
theorem storeFind_redisExpireSet (st : Store) (k : String) (t : Int) :
    storeFind (redisExpireSet st k t) k
      = (storeFind st k).map (fun e => Entry.mk e.value t) := by
  induction st with
  | nil => rfl
  | cons p rest ih =>
    simp only [redisExpireSet, List.map_cons] at ih ⊢
    by_cases h : p.1 = k
    · rw [if_pos h]
      simp [storeFind, h]
    · rw [if_neg h]
      simp [storeFind, h, ih]

/-- The successful-round-trip behavior of `tryLock` as one equation. -/
theorem tryLock_none (l : RedisLock) (st : Store) :
    l.tryLock none st
      = if storeFind st l.options.Key = none
        then ((true, none), (l.options.Key, Entry.mk l.value l.options.TTL) :: st)
        else ((false, none), st) := by
  cases h : storeFind st l.options.Key with
  | none => simp [RedisLock.tryLock, setNX, h]
  | some e0 => simp [RedisLock.tryLock, setNX, h]

/-- The successful-round-trip behavior of `unlock` as one equation. -/
theorem unlock_none (l : RedisLock) (st : Store) :
    l.unlock none st
      = (none, if redisGet st l.options.Key = some l.value
               then redisDel st l.options.Key else st) := by
  show (none, (evalReleaseScript st l.options.Key l.value).2) = _
  unfold evalReleaseScript
  cases h : redisGet st l.options.Key with
  | none => simp
  | some cur => by_cases hv : cur = l.value <;> simp [hv]

/-- The successful-round-trip behavior of `extend` as one equation. -/
theorem extend_none (l : RedisLock) (st : Store) (d : Int) :
    l.extend none st d
      = (none, if redisGet st l.options.Key = some l.value
               then redisExpireSet st l.options.Key
                      (goDurationWholeSeconds d * 1000000000)
               else st) := by
  show (none, (evalExtendScript st l.options.Key l.value
                (goDurationWholeSeconds d)).2) = _
  unfold evalExtendScript
  cases h : redisGet st l.options.Key with
  | none => simp
  | some cur => by_cases hv : cur = l.value <;> simp [hv]

/-- Claim C1: Unlock removes the store entry for the handle key iff the
current stored value equals this handle token; on a mismatch or a missing
entry the store is unchanged; in both cases Unlock returns success (nil
error), and a non-nil error arises only from a failed store round trip
(wrapping the cause). -/
theorem unlock_ownership_gated (l : RedisLock) (st : Store) :
    (∀ e, l.unlock (some e) st = (some (GoError.releaseWrapped e), st)) ∧
    l.unlock none st
      = (none, if redisGet st l.options.Key = some l.value
               then redisDel st l.options.Key else st) ∧
    storeFind (l.unlock none st).2 l.options.Key
      = (if redisGet st l.options.Key = some l.value then none
         else storeFind st l.options.Key) := by
  refine ⟨fun e => rfl, unlock_none l st, ?_⟩
  rw [unlock_none]
  by_cases h : redisGet st l.options.Key = some l.value
  · simp [h, storeFind_redisDel]
  · simp [h]

/-- Claim C4: with a successful round trip, TryLock returns acquired=true
iff the store had no live entry for the key, in which case the entry
(key, ownerToken, TTL) is created; if an entry exists it returns
(false, nil) and leaves the store unchanged; a non-nil error occurs exactly
when the round trip fails, and it wraps the underlying store error. -/
theorem tryLock_spec (l : RedisLock) (st : Store) :
    (∀ e, l.tryLock (some e) st = ((false, some (GoError.storeWrapped e)), st)) ∧
    l.tryLock none st
      = if storeFind st l.options.Key = none
        then ((true, none), (l.options.Key, Entry.mk l.value l.options.TTL) :: st)
        else ((false, none), st) :=
  ⟨fun _ => rfl, tryLock_none l st⟩

/-- Claim C2, counterexample: Extend does not reset the remaining TTL to
the new duration when the duration is not a whole number of seconds — the
code passes int(duration.Seconds()) to EXPIRE, so a 1.5s extension leaves a
1s lease, not a 1.5s one. -/
theorem extend_ttl_counterexample :
    (lockK.extend none heldByTok 1500000000).2
      = [("k", Entry.mk "tok" 1000000000)] ∧
    storeFind (lockK.extend none heldByTok 1500000000).2 "k"
      ≠ some (Entry.mk "tok" 1500000000) := by
  decide

/-- Claim C2, amended: when the stored value at the key equals this handle
token, Extend resets the remaining TTL to the new duration truncated down
to a whole number of seconds (equal to the requested duration exactly when
it is a whole-second duration); when the value does not match the store is
unchanged; both outcomes return success, and a non-nil error occurs exactly
when the store round trip fails (wrapping the cause). -/
theorem extend_ownership_gated (l : RedisLock) (st : Store) (d : Int) :
    (∀ e, l.extend (some e) st d = (some (GoError.extendWrapped e), st)) ∧
    l.extend none st d
      = (none, if redisGet st l.options.Key = some l.value
               then redisExpireSet st l.options.Key
                      (goDurationWholeSeconds d * 1000000000)
               else st) ∧
    (redisGet st l.options.Key = some l.value →
      storeFind (l.extend none st d).2 l.options.Key
        = some (Entry.mk l.value (goDurationWholeSeconds d * 1000000000))) := by
  refine ⟨fun e => rfl, extend_none l st d, fun h => ?_⟩
  rw [extend_none]
  simp only [h, if_pos]
  rw [storeFind_redisExpireSet]
  cases hf : storeFind st l.options.Key with
  | none => simp [redisGet, hf] at h
  | some e0 =>
    have : e0.value = l.value := by simpa [redisGet, hf] using h
    simp [this]

/-- Witness for the amended C2 at a concrete matched extension. -/
theorem extend_ownership_gated_witness :
    redisGet heldByTok "k" = some "tok" ∧
    storeFind (lockK.extend none heldByTok 30000000000).2 "k"
      = some (Entry.mk "tok" (goDurationWholeSeconds 30000000000 * 1000000000)) :=
  ⟨by decide, (extend_ownership_gated lockK heldByTok 30000000000).2.2 (by decide)⟩

/-! Lemmas about the retry loop. -/

/-- If every attempt finds the key held and every wait completes, the loop
runs out of fuel having made one TryLock call and one completed wait per
iteration, and exits with the exhaustion error naming MaxRetries. -/
theorem lockGo_all_busy : ∀ (fuel : Nat) (tries : Nat → TryResult)
    (waits : Nat → WaitResult) (m : Int),
    (∀ j, tries j = TryResult.succeeded false) →
    (∀ j, waits j = WaitResult.completed) →
    lockGo tries waits m fuel = (some (GoError.exhaustedErr m), fuel, fuel) := by
  intro fuel
  induction fuel with
  | zero => intro tries waits m _ _; rfl
  | succ f ih =>
    intro tries waits m htr hw
    simp only [lockGo, htr 0, hw 0]
    simp [ih (fun j => tries (j + 1)) (fun j => waits (j + 1)) m
      (fun j => htr (j + 1)) (fun j => hw (j + 1))]

/-- Skipping the first i iterations of the loop, when each of them finds
the key held and completes its wait: the loop continues with the oracles
shifted by i, fuel reduced by i, and i more calls and waits counted. -/
theorem lockGo_skip : ∀ (i fuel : Nat) (tries : Nat → TryResult)
    (waits : Nat → WaitResult) (m : Int),
    i ≤ fuel →
    (∀ j, j < i → tries j = TryResult.succeeded false) →
    (∀ j, j < i → waits j = WaitResult.completed) →
    lockGo tries waits m fuel
      = ((lockGo (fun j => tries (j + i)) (fun j => waits (j + i)) m (fuel - i)).1,
         (lockGo (fun j => tries (j + i)) (fun j => waits (j + i)) m (fuel - i)).2.1 + i,
         (lockGo (fun j => tries (j + i)) (fun j => waits (j + i)) m (fuel - i)).2.2 + i) := by
  intro i
  induction i with
  | zero =>
    intro fuel tries waits m _ _ _
    simp
  | succ i ih =>
    intro fuel tries waits m hle htr hw
    obtain ⟨f, rfl⟩ : ∃ f, fuel = f + 1 := ⟨fuel - 1, by omega⟩
    have heq := ih f (fun j => tries (j + 1)) (fun j => waits (j + 1)) m (by omega)
      (fun j hj => htr (j + 1) (by omega)) (fun j hj => hw (j + 1) (by omega))
    have hfu : f + 1 - (i + 1) = f - i := by omega
    simp only [lockGo, htr 0 (by omega), hw 0 (by omega)]
    rw [heq]
    simp only [hfu]
    rfl

/-- Claim C3, counterexample: with MaxRetries = 1 and the key perpetually
held, the loop makes 1 TryLock call but also 1 completed inter-attempt
wait — the wait is performed after the final failed attempt too, so the
claimed count of k - 1 = 0 waits is wrong. -/
theorem lock_retry_bound_counterexample :
    lockRun allBusy allWaitsComplete 1 = (some (GoError.exhaustedErr 1), 1, 1) ∧
    (lockRun allBusy allWaitsComplete 1).2.2 ≠ 1 - 1 := by
  decide

/-- Claim C3, amended: with MaxRetries = k >= 1 and a key held by another
owner on every attempt, Lock performs exactly k TryLock calls and exactly k
completed inter-attempt waits (one after every failed attempt, including
the last), then fails with the exhaustion error naming k. -/
theorem lock_retry_bound (k : Nat) (_hk : 1 ≤ k) (tries : Nat → TryResult)
    (waits : Nat → WaitResult)
    (htr : ∀ j, tries j = TryResult.succeeded false)
    (hw : ∀ j, waits j = WaitResult.completed) :
    lockRun tries waits (k : Int)
      = (some (GoError.exhaustedErr (k : Int)), k, k) := by
  unfold lockRun
  rw [Int.toNat_natCast]
  exact lockGo_all_busy k tries waits (k : Int) htr hw

/-- Witness for the amended C3 at k = 3. -/
theorem lock_retry_bound_witness :
    lockRun allBusy allWaitsComplete 3 = (some (GoError.exhaustedErr 3), 3, 3) :=
  lock_retry_bound 3 (by norm_num) allBusy allWaitsComplete
    (fun _ => rfl) (fun _ => rfl)

/-- Claim C5: if the context is canceled during the inter-attempt wait of
iteration i (after i+1 failed attempts and i completed waits), Lock returns
the context error, the interrupted wait is not completed, and no further
TryLock attempts are made. -/
theorem lock_cancellation_responsive (tries : Nat → TryResult)
    (waits : Nat → WaitResult) (m : Int) (i : Nat) (e : String)
    (hi : i < m.toNat)
    (htr : ∀ j, j ≤ i → tries j = TryResult.succeeded false)
    (hw : ∀ j, j < i → waits j = WaitResult.completed)
    (hc : waits i = WaitResult.canceled e) :
    lockRun tries waits m = (some (GoError.contextErr e), i + 1, i) := by
  unfold lockRun
  rw [lockGo_skip i m.toNat tries waits m (by omega)
    (fun j hj => htr j (by omega)) hw]
  obtain ⟨f, hf⟩ : ∃ f, m.toNat - i = f + 1 := ⟨m.toNat - i - 1, by omega⟩
  rw [hf]
  have h0 : tries (0 + i) = TryResult.succeeded false := by
    rw [Nat.zero_add]; exact htr i (by omega)
  have h1 : waits (0 + i) = WaitResult.canceled e := by
    rw [Nat.zero_add]; exact hc
  simp only [lockGo, h0, h1]
  simp [Prod.ext_iff]
  omega

/-- Claim C6: if the SetNX round trip of attempt i fails (after i failed
attempts each followed by a completed wait), Lock returns the wrapped store
error immediately: no further attempts are made and no wait follows the
error. -/
theorem lock_store_error_aborts (tries : Nat → TryResult)
    (waits : Nat → WaitResult) (m : Int) (i : Nat) (e : String)
    (hi : i < m.toNat)
    (htr : ∀ j, j < i → tries j = TryResult.succeeded false)
    (hw : ∀ j, j < i → waits j = WaitResult.completed)
    (he : tries i = TryResult.roundTripErr e) :
    lockRun tries waits m = (some (GoError.storeWrapped e), i + 1, i) := by
  unfold lockRun
  rw [lockGo_skip i m.toNat tries waits m (by omega) htr hw]
  obtain ⟨f, hf⟩ : ∃ f, m.toNat - i = f + 1 := ⟨m.toNat - i - 1, by omega⟩
  rw [hf]
  have h0 : tries (0 + i) = TryResult.roundTripErr e := by
    rw [Nat.zero_add]; exact he
  simp only [lockGo, h0]
  simp [Prod.ext_iff]
  omega

/-- Witness for C5: cancellation at the second wait with MaxRetries = 3
yields the context error after 2 attempts and 1 completed wait. -/
theorem lock_cancellation_witness :
    lockRun allBusy cancelAtOne 3
      = (some (GoError.contextErr "context canceled"), 2, 1) :=
  lock_cancellation_responsive allBusy cancelAtOne 3 1 "context canceled"
    (by decide) (fun _ _ => rfl)
    (fun j hj => by
      have hj0 : j = 0 := by omega
      rw [hj0]; rfl)
    rfl

/-- Witness for C6: a round-trip failure at the second attempt with
MaxRetries = 3 aborts after 2 attempts and 1 wait with the wrapped store
error. -/
theorem lock_store_error_witness :
    lockRun errAtOne allWaitsComplete 3
      = (some (GoError.storeWrapped "connection refused"), 2, 1) :=
  lock_store_error_aborts errAtOne allWaitsComplete 3 1 "connection refused"
    (by decide)
    (fun j hj => by
      have hj0 : j = 0 := by omega
      rw [hj0]; rfl)
    (fun _ _ => rfl)
    rfl

/-- Claim C7: validation fails closed — a disabled configuration passes
Validate with no further checks, while an enabled configuration with
TTL <= 0 or MaxRetries < 0 is rejected with a validation error at
configuration-to-options conversion time (ToOptions returns an error, so
no Options value, hence no handle, is produced). -/
theorem config_validation_fails_closed (c : Config) :
    (c.Enabled = false → c.Validate = none) ∧
    (c.Enabled = true → c.TTL ≤ 0 ∨ c.MaxRetries < 0 →
      ∃ msg, c.ToOptions = Except.error msg) := by
  constructor
  · intro h
    simp [Config.Validate, h]
  · intro hE hbad
    have hv : ∃ m, c.Validate = some m := by
      rcases hbad with h | h
      · exact ⟨"lock ttl must be greater than 0",
          by simp [Config.Validate, hE, h]⟩
      · by_cases ht : c.TTL ≤ 0
        · exact ⟨"lock ttl must be greater than 0",
            by simp [Config.Validate, hE, ht]⟩
        · exact ⟨"lock max_retries must be non-negative",
            by simp [Config.Validate, hE, ht, h]⟩
    obtain ⟨m, hm⟩ := hv
    exact ⟨m, by simp [Config.ToOptions, hm]⟩

/-- Witness for C7: a disabled configuration with invalid fields passes
Validate; an enabled configuration with negative TTL is rejected by
ToOptions. -/
theorem config_validation_witness :
    (Config.mk false (-5) 0 (-1) true).Validate = none ∧
    ∃ msg, (Config.mk true (-5) 0 0 true).ToOptions = Except.error msg :=
  ⟨(config_validation_fails_closed (Config.mk false (-5) 0 (-1) true)).1 rfl,
   (config_validation_fails_closed (Config.mk true (-5) 0 0 true)).2 rfl
     (Or.inl (by norm_num))⟩

/-- While the key is held, every further TryLock by a handle for that key
returns (false, nil) and leaves the store unchanged. -/
theorem runTryLocks_held (k : String) : ∀ (ls : List RedisLock) (st : Store),
    (∀ l ∈ ls, l.options.Key = k) → storeFind st k ≠ none →
    runTryLocks ls st = (List.replicate ls.length (false, none), st) := by
  intro ls
  induction ls with
  | nil => intro st _ _; rfl
  | cons l rest ih =>
    intro st hks hsome
    have hk : l.options.Key = k := hks l (by simp)
    have h1 : l.tryLock none st = ((false, none), st) := by
      rw [tryLock_none, hk, if_neg hsome]
    simp only [runTryLocks, h1]
    rw [ih st (fun l2 hl2 => hks l2 (by simp [hl2])) hsome]
    simp [List.replicate]

/-- Claim C9: among N >= 1 TryLock calls for the same key issued against a
store with no live entry for it, in any serialization order (SetNX is one
atomic store operation, so every concurrent execution is equivalent to some
order), exactly the first returns acquired=true and every other returns
(false, nil). -/
theorem tryLock_mutual_exclusion (k : String) (ls : List RedisLock)
    (st : Store) (hkeys : ∀ l ∈ ls, l.options.Key = k)
    (hfree : storeFind st k = none) (hne : ls ≠ []) :
    (runTryLocks ls st).1
      = (true, none) :: List.replicate (ls.length - 1) (false, none) := by
  cases ls with
  | nil => exact absurd rfl hne
  | cons l rest =>
    have hk : l.options.Key = k := hkeys l (by simp)
    have h1 : l.tryLock none st
        = ((true, none), (l.options.Key, Entry.mk l.value l.options.TTL) :: st) := by
      rw [tryLock_none, hk, if_pos hfree]
    simp only [runTryLocks, h1]
    have hheld : storeFind ((l.options.Key, Entry.mk l.value l.options.TTL) :: st) k
        ≠ none := by
      simp [storeFind, hk]
    rw [runTryLocks_held k rest
      ((l.options.Key, Entry.mk l.value l.options.TTL) :: st)
      (fun l2 hl2 => hkeys l2 (by simp [hl2])) hheld]
    simp

/-- Witness for C9: three handles contending for "res1" on an empty store —
the first acquires, the other two get (false, nil). -/
theorem tryLock_mutual_exclusion_witness :
    (runTryLocks [lockA, lockB, lockC] []).1
      = [(true, none), (false, none), (false, none)] :=
  tryLock_mutual_exclusion "res1" [lockA, lockB, lockC] []
    (by decide) rfl (by decide)

/-- Claim C10: a handle constructed with nil options gets TTL 30s,
RetryDelay 100ms, MaxRetries 3, EnableTrace true and the Go zero-value key
"", so every handle constructed with nil options contends for the same
empty key. -/
theorem nil_options_defaults (t : Int) :
    (NewRedisLock none t).options
      = Options.mk "" 30000000000 100000000 3 true ∧
    (NewRedisLock none t).options.Key = "" :=
  ⟨rfl, rfl⟩

/-! Injectivity of the decimal token rendering, for the token-uniqueness
claim. -/

/-- Distinct decimal digits render as distinct characters. -/
theorem digitChar_lt_inj {d1 d2 : Nat} (h1 : d1 < 10) (h2 : d2 < 10)
    (h : digitChar d1 = digitChar d2) : d1 = d2 := by
  interval_cases d1 <;> interval_cases d2 <;> revert h <;> decide

/-- A digit character is never the minus sign. -/
theorem digitChar_ne_neg {d : Nat} (h : d < 10) : digitChar d ≠ '-' := by
  interval_cases d <;> decide

/-- Digit-character rendering is injective on lists of decimal digits. -/
theorem map_digitChar_inj : ∀ (l1 l2 : List Nat),
    (∀ d ∈ l1, d < 10) → (∀ d ∈ l2, d < 10) →
    l1.map digitChar = l2.map digitChar → l1 = l2 := by
  intro l1
  induction l1 with
  | nil =>
    intro l2 _ _ h
    cases l2 with
    | nil => rfl
    | cons b bs => simp at h
  | cons a as ih =>
    intro l2 h1 h2 h
    cases l2 with
    | nil => simp at h
    | cons b bs =>
      simp only [List.map_cons, List.cons.injEq] at h
      have ha : a < 10 := h1 a (by simp)
      have hb : b < 10 := h2 b (by simp)
      have hab : a = b := digitChar_lt_inj ha hb h.1
      rw [hab, ih bs (fun d hd => h1 d (by simp [hd]))
        (fun d hd => h2 d (by simp [hd])) h.2]

/-- The decimal rendering of a natural number is injective. -/
theorem decimalString_inj : Function.Injective decimalString := by
  intro m n h
  unfold decimalString at h
  by_cases hm : m = 0 <;> by_cases hn : n = 0
  · omega
  · exfalso
    rw [if_pos hm, if_neg hn] at h
    have hd : List.cons '0' List.nil
        = ((Nat.digits 10 n).map digitChar).reverse := congrArg String.data h
    have h2 : (Nat.digits 10 n).map digitChar = List.cons '0' List.nil := by
      rw [← List.reverse_reverse ((Nat.digits 10 n).map digitChar), ← hd]
      rfl
    cases hdig : Nat.digits 10 n with
    | nil => rw [hdig] at h2; simp at h2
    | cons d rest =>
      rw [hdig] at h2
      simp only [List.map_cons, List.cons.injEq] at h2
      obtain ⟨hdc, hrest⟩ := h2
      have hrest2 : rest = [] := by simpa using hrest
      have hd10 : d < 10 :=
        Nat.digits_lt_base (by norm_num) (by rw [hdig]; simp)
      have hd0 : d = 0 := digitChar_lt_inj hd10 (by norm_num) hdc
      have hofd := Nat.ofDigits_digits 10 n
      rw [hdig, hd0, hrest2] at hofd
      simp [Nat.ofDigits] at hofd
      exact hn hofd.symm
  · exfalso
    rw [if_neg hm, if_pos hn] at h
    have hd : ((Nat.digits 10 m).map digitChar).reverse
        = List.cons '0' List.nil := congrArg String.data h
    have h2 : (Nat.digits 10 m).map digitChar = List.cons '0' List.nil := by
      rw [← List.reverse_reverse ((Nat.digits 10 m).map digitChar), hd]
      rfl
    cases hdig : Nat.digits 10 m with
    | nil => rw [hdig] at h2; simp at h2
    | cons d rest =>
      rw [hdig] at h2
      simp only [List.map_cons, List.cons.injEq] at h2
      obtain ⟨hdc, hrest⟩ := h2
      have hrest2 : rest = [] := by simpa using hrest
      have hd10 : d < 10 :=
        Nat.digits_lt_base (by norm_num) (by rw [hdig]; simp)
      have hd0 : d = 0 := digitChar_lt_inj hd10 (by norm_num) hdc
      have hofd := Nat.ofDigits_digits 10 m
      rw [hdig, hd0, hrest2] at hofd
      simp [Nat.ofDigits] at hofd
      exact hm hofd.symm
  · rw [if_neg hm, if_neg hn] at h
    have hd : ((Nat.digits 10 m).map digitChar).reverse
        = ((Nat.digits 10 n).map digitChar).reverse := congrArg String.data h
    have h2 : (Nat.digits 10 m).map digitChar
        = (Nat.digits 10 n).map digitChar := List.reverse_injective hd
    have h3 : Nat.digits 10 m = Nat.digits 10 n :=
      map_digitChar_inj (Nat.digits 10 m) (Nat.digits 10 n)
        (fun d hd2 => Nat.digits_lt_base (by norm_num) hd2)
        (fun d hd2 => Nat.digits_lt_base (by norm_num) hd2) h2
    exact Nat.digits.injective 10 h3

/-- A minus-prefixed decimal rendering never equals a plain one: every
character of a plain rendering is a digit character. -/
theorem neg_decimal_ne (a b : Nat) : "-" ++ decimalString a ≠ decimalString b := by
  intro h
  have hd : '-' :: (decimalString a).data = (decimalString b).data := by
    have h0 := congrArg String.data h
    simpa using h0
  have hmem : '-' ∈ (decimalString b).data := by rw [← hd]; simp
  unfold decimalString at hmem
  by_cases hb : b = 0
  · rw [if_pos hb] at hmem
    exact absurd hmem (by decide)
  · rw [if_neg hb] at hmem
    have hmem2 : '-' ∈ ((Nat.digits 10 b).map digitChar).reverse := hmem
    rw [List.mem_reverse] at hmem2
    obtain ⟨d, hdmem, hdc⟩ := List.mem_map.mp hmem2
    exact digitChar_ne_neg (Nat.digits_lt_base (by norm_num) hdmem) hdc

/-- The token rendering is injective in the construction-time clock
reading. -/
theorem generateLockValue_inj : Function.Injective generateLockValue := by
  intro t1 t2 h
  unfold generateLockValue at h
  by_cases h1 : t1 < 0 <;> by_cases h2 : t2 < 0
  · rw [if_pos h1, if_pos h2] at h
    have hd := congrArg String.data h
    simp at hd
    have hs : decimalString t1.natAbs = decimalString t2.natAbs :=
      String.ext hd
    have := decimalString_inj hs
    omega
  · rw [if_pos h1, if_neg h2] at h
    exact absurd h (neg_decimal_ne _ _)
  · rw [if_neg h1, if_pos h2] at h
    exact absurd h.symm (neg_decimal_ne _ _)
  · rw [if_neg h1, if_neg h2] at h
    have := decimalString_inj h
    omega

/-- Claim C8, counterexample: two distinct handles constructed at the same
clock reading (possible on a coarse clock or in a tight loop) receive the
same ownerToken — the token is derived solely from the timestamp, not from
the handle instance. -/
theorem token_uniqueness_counterexample :
    NewRedisLock (some optsA) 1700000000000000000
      ≠ NewRedisLock (some optsB) 1700000000000000000 ∧
    (NewRedisLock (some optsA) 1700000000000000000).value
      = (NewRedisLock (some optsB) 1700000000000000000).value := by
  constructor
  · intro h
    exact absurd (congrArg (fun r => r.options.Key) h) (by decide)
  · rfl

/-- Claim C8, amended: handles whose construction-time clock readings
(UnixNano) differ receive distinct ownerTokens — uniqueness holds exactly
up to distinctness of the construction timestamps. -/
theorem token_uniqueness_distinct_times (o1 o2 : Option Options)
    (t1 t2 : Int) (h : t1 ≠ t2) :
    (NewRedisLock o1 t1).value ≠ (NewRedisLock o2 t2).value := by
  intro hv
  exact h (generateLockValue_inj hv)

/-- Witness for the amended C8 at timestamps 1 and 2. -/
theorem token_uniqueness_witness :
    (NewRedisLock none 1).value ≠ (NewRedisLock none 2).value :=
  token_uniqueness_distinct_times none none 1 2 (by decide)

end FrameworkLock
